import Mathlib

/-!
Shallow embedding of the PrC dashboard pipeline (src/streamlit_app.py).

The program loads a transactional CSV and a location spreadsheet, coerces
numeric and date columns (failed cells become null), left-joins on Rest_Key,
filters by a year range and three multiselects, and computes grouped
aggregations.  Tables are lists of records; null cells are Option.none.
Numeric amounts are modelled as integers (exact arithmetic); the date parser
pd.to_datetime(..., dayfirst=True, errors=coerce) is abstracted by its result,
an optional (year, month) pair, since no claim depends on which strings parse.
Pandas semantics encoded below: comparisons with null are false, isin of null
is false, groupby sorts its keys ascending and drops null keys, sum skips
nulls (treating them as 0), nunique counts distinct non-null values.
-/

namespace PrC

/-- A raw cell value of a loaded column before numeric coercion. -/
inductive Cell where
  | blank : Cell
  | text (s : String) : Cell
  | number (n : Int) : Cell
deriving DecidableEq

/-- The numeric value of a digit character, none for a non-digit. -/
def digitVal? (c : Char) : Option Nat :=
  if c.isDigit then some (c.toNat - 48) else none

/-- The value of a non-empty all-digit character list, none otherwise. -/
def natOfDigits (cs : List Char) : Option Nat :=
  match cs with
  | [] => none
  | _ =>
    cs.foldl
      (fun a c =>
        match a, digitVal? c with
        | some n, some d => some (n * 10 + d)
        | _, _ => none)
      (some 0)

/-- An optionally negated integer numeral, none for any other string. -/
def parseIntNumeral (s : String) : Option Int :=
  match s.data with
  | [] => none
  | '-' :: cs => (natOfDigits cs).map (fun n => -(n : Int))
  | cs => (natOfDigits cs).map (fun n => (n : Int))

/-- pd.to_numeric(col, errors=coerce) on one cell: numbers pass through,
numeral strings are parsed (the embedding models integer numerals; amounts
are exact integers throughout), anything unparseable or blank becomes null.
Total function: coercion failure yields none, never an error. -/
def toNumeric : Cell → Option Int
  | Cell.number n => some n
  | Cell.text s => parseIntNumeral s
  | Cell.blank => none

/-- Lexicographic order on character lists by code point, the order in which
pandas groupby sorts string keys. -/
def charListLe : List Char → List Char → Bool
  | [], _ => true
  | _ :: _, [] => false
  | a :: as, b :: bs =>
    if a < b then true else if b < a then false else charListLe as bs

/-- Lexicographic order on strings by code point. -/
def strLe (a b : String) : Bool := charListLe a.data b.data

/-- strLe as a decidable relation, for sorting group keys. -/
def sLe (a b : String) : Prop := strLe a b = true

instance : DecidableRel sLe := fun _ _ => instDecidableEqBool _ _

/-- One row of Actuals_data.csv after date parsing: date is the result of
pd.to_datetime(..., dayfirst=True, errors=coerce), none when parsing failed,
holding the (year, month) pair that .dt.year / .dt.month extract. -/
structure TransRow where
  restKey : Option String
  salesCell : Cell
  customersCell : Cell
  date : Option (Int × Nat)
deriving DecidableEq

/-- One row of Location.xlsx (columns Rest_Key, Country, City,
Restaurant_Name); individual attribute cells may be empty (null). -/
structure LocRow where
  restKey : String
  country : Option String
  city : Option String
  restaurantName : Option String
deriving DecidableEq

/-- A row of merged_df: transaction fields (numeric columns coerced) plus the
location attributes attached by the left join, null when no key matched. -/
structure EnrichedRecord where
  restKey : Option String
  sales : Option Int
  customers : Option Int
  date : Option (Int × Nat)
  country : Option String
  city : Option String
  restaurantName : Option String
deriving DecidableEq

/-- The derived Year column: actuals_df[Date].dt.year, null for null dates. -/
def year (r : EnrichedRecord) : Option Int := r.date.map Prod.fst

/-- The derived Month column: actuals_df[Date].dt.month, null for null dates. -/
def month (r : EnrichedRecord) : Option Nat := r.date.map Prod.snd

/-- The left join of one transaction row against the location table:
first matching Rest_Key supplies Country/City/Restaurant_Name (location keys
are assumed unique, the documented precondition); no match leaves them null.
Numeric coercion of Sales and Customers is applied as in load_data. -/
def mergeRow (locs : List LocRow) (a : TransRow) : EnrichedRecord :=
  match locs.find? (fun l => a.restKey == some l.restKey) with
  | some l =>
      { restKey := a.restKey, sales := toNumeric a.salesCell,
        customers := toNumeric a.customersCell, date := a.date,
        country := l.country, city := l.city,
        restaurantName := l.restaurantName }
  | none =>
      { restKey := a.restKey, sales := toNumeric a.salesCell,
        customers := toNumeric a.customersCell, date := a.date,
        country := none, city := none, restaurantName := none }

/-- merged_df = pd.merge(actuals_df, location_df[...], on=Rest_Key, how=left). -/
def merged_df (actuals : List TransRow) (locs : List LocRow) : List EnrichedRecord :=
  actuals.map (mergeRow locs)

/-- The sidebar state: selected year range and the three multiselects. -/
structure FilterSelection where
  yearLo : Int
  yearHi : Int
  countries : List String
  cities : List String
  restaurants : List String

/-- (Year >= lo) & (Year <= hi) with pandas null semantics: a comparison
against a null Year is false, so null-Year rows never pass. -/
def yearPass (sel : FilterSelection) (r : EnrichedRecord) : Bool :=
  match year r with
  | none => false
  | some y => decide (sel.yearLo ≤ y) && decide (y ≤ sel.yearHi)

/-- col.isin(choices) on an optional value: null is a member of nothing
(the choice lists come from dropna().unique(), so they hold no null). -/
def isinOpt (v : Option String) (choices : List String) : Bool :=
  match v with
  | none => false
  | some s => choices.contains s

/-- The year-range stage of filtered_df (lines 85-88). -/
def yearFiltered (sel : FilterSelection) (df : List EnrichedRecord) : List EnrichedRecord :=
  df.filter (yearPass sel)

/-- One conditional facet mask: `if selected_xs:` skips the mask when the
selection list is empty (an empty Python list is falsy). -/
def condFilter (choices : List String) (p : EnrichedRecord → Bool)
    (l : List EnrichedRecord) : List EnrichedRecord :=
  if choices.isEmpty then l else l.filter p

/-- filtered_df (lines 85-97): the year-range mask, then one conditional
isin mask per facet (country, then city, then restaurant), each applied only
when its selection list is non-empty. -/
def filtered_df (sel : FilterSelection) (df : List EnrichedRecord) : List EnrichedRecord :=
  condFilter sel.restaurants (fun r => isinOpt r.restaurantName sel.restaurants)
    (condFilter sel.cities (fun r => isinOpt r.city sel.cities)
      (condFilter sel.countries (fun r => isinOpt r.country sel.countries)
        (yearFiltered sel df)))

/-- df.groupby(key)[val].sum() evaluated at one group key: the sum of the
value column over the rows of that group, nulls skipped (contributing 0). -/
def groupSum (key : EnrichedRecord → Option α) (val : EnrichedRecord → Option Int)
    [DecidableEq α] (df : List EnrichedRecord) (k : α) : Int :=
  ((df.filter (fun r => key r == some k)).map (fun r => (val r).getD 0)).sum

/-- The distinct non-null values of a key column (groupby drops null keys). -/
def keysOf (key : EnrichedRecord → Option α) [DecidableEq α]
    (df : List EnrichedRecord) : List α :=
  (df.filterMap key).dedup

/-- df.groupby(key)[val].sum().reset_index(): one (key, sum) row per distinct
non-null key, keys sorted ascending (groupby default sort=True) in the key
order rel. -/
def groupbyAgg (key : EnrichedRecord → Option α) (val : EnrichedRecord → Option Int)
    [DecidableEq α] (rel : α → α → Prop) [DecidableRel rel]
    (df : List EnrichedRecord) : List (α × Int) :=
  (List.insertionSort rel (keysOf key df)).map
    (fun k => (k, groupSum key val df k))

/-- month_names (line 105). -/
def month_names : List String :=
  ["Jan", "Feb", "Mar", "Apr", "May", "Jun",
   "Jul", "Aug", "Sep", "Oct", "Nov", "Dec"]

/-- The index shared by the monthly groupbys: distinct months present in the
filtered set, ascending. -/
def monthsOf (df : List EnrichedRecord) : List Nat :=
  List.insertionSort (fun a b => a ≤ b) (keysOf month df)

/-- sales_by_month = filtered_df.groupby(Month)[Sales].sum() (line 103). -/
def sales_by_month (df : List EnrichedRecord) : List (Nat × Int) :=
  groupbyAgg month (fun r => r.sales) (fun a b => a ≤ b) df

/-- groupby(Month)[Rest_Key].nunique() at one month: the number of distinct
non-null Rest_Key values among that months rows. -/
def monthNunique (df : List EnrichedRecord) (m : Nat) : Nat :=
  (((df.filter (fun r => month r == some m)).filterMap
      (fun r => r.restKey)).dedup).length

/-- restaurants_by_month = filtered_df.groupby(Month)[Rest_Key].nunique() (line 104). -/
def restaurants_by_month (df : List EnrichedRecord) : List (Nat × Nat) :=
  (monthsOf df).map (fun m => (m, monthNunique df m))

/-- monthly_summary (lines 109-113): one row per month of the groupby index,
labelled month_names[m-1], with the sales sum and the distinct-restaurant
count of that month. -/
def monthly_summary (df : List EnrichedRecord) : List (String × Int × Nat) :=
  (monthsOf df).map
    (fun m => (month_names.getD (m - 1) "", groupSum month (fun r => r.sales) df m,
               monthNunique df m))

instance : DecidableRel (fun (a b : String × Int) => b.2 ≤ a.2) :=
  fun a b => inferInstanceAs (Decidable (b.2 ≤ a.2))

/-- customers_by_restaurant (lines 147-149): groupby(Restaurant_Name)
[Customers].sum().reset_index(), then sort_values descending by the total.
The descending sort is modelled as a stable sort on the key-sorted groupby
output (pandas leaves the tie order of its default sort kind unspecified). -/
def customers_by_restaurant (df : List EnrichedRecord) : List (String × Int) :=
  List.insertionSort (fun a b => b.2 ≤ a.2)
    (groupbyAgg (fun r => r.restaurantName) (fun r => r.customers) sLe df)

/-- customers_by_country (lines 156-158): same aggregation grouped by Country. -/
def customers_by_country (df : List EnrichedRecord) : List (String × Int) :=
  List.insertionSort (fun a b => b.2 ≤ a.2)
    (groupbyAgg (fun r => r.country) (fun r => r.customers) sLe df)

/-- The grand total of a (key, total) table: the sum of its total column. -/
def grandTotal (t : List (String × Int)) : Int := (t.map (fun x => x.2)).sum

/-- Series.min() with nulls skipped: none when every entry is null (or the
column is empty), in which case pandas returns NaN. -/
def colMin (l : List (Option Int)) : Option Int :=
  match l.filterMap id with
  | [] => none
  | x :: xs => some (xs.foldl min x)

/-- Series.max() with nulls skipped, as colMin. -/
def colMax (l : List (Option Int)) : Option Int :=
  match l.filterMap id with
  | [] => none
  | x :: xs => some (xs.foldl max x)

/-- Lines 51: int(merged_df[Year].min()), int(merged_df[Year].max()).
int(NaN) raises ValueError, so the pair exists only when the Year column has
at least one non-null entry; none models the raised error aborting startup. -/
def yearBounds (df : List EnrichedRecord) : Option (Int × Int) :=
  match colMin (df.map year), colMax (df.map year) with
  | some a, some b => some (a, b)
  | _, _ => none

/-- Strict version of the string key order. -/
def sLt (a b : String) : Prop := sLe a b ∧ a ≠ b

/-- The order in which the descending stable sort leaves the rows of a
key-sorted grouped table: totals strictly descending, or tied totals with
names in the ascending key order. -/
def rowLex (a b : String × Int) : Prop :=
  b.2 < a.2 ∨ (b.2 = a.2 ∧ sLt a.1 b.1)

instance : IsTotal (String × Int) (fun a b => b.2 ≤ a.2) :=
  ⟨fun a b => le_total b.2 a.2⟩

instance : IsTrans (String × Int) (fun a b => b.2 ≤ a.2) :=
  ⟨fun _ _ _ h1 h2 => le_trans h2 h1⟩

/-! ### Concrete rows used to instantiate the theorems -/

/-- A fully populated enriched row, as produced by a matched left join. -/
def exRec : EnrichedRecord :=
  { restKey := some "R1", sales := some 100, customers := some 10,
    date := some (2023, 1), country := some "France", city := some "Paris",
    restaurantName := some "Bistro A" }

/-- The default sidebar state over a one-year dataset: full year range and
(modulo the all-selected UI default) empty facet selections. -/
def exSel : FilterSelection :=
  { yearLo := 2023, yearHi := 2023, countries := [], cities := [],
    restaurants := [] }

/-- A selection with a non-empty country facet. -/
def exSelFrance : FilterSelection :=
  { yearLo := 2023, yearHi := 2023, countries := ["France"], cities := [],
    restaurants := [] }

/-- A row whose group keys are both null, as after an unmatched left join. -/
def exRecNullKeys : EnrichedRecord :=
  { exRec with restKey := some "R2", country := none, restaurantName := none }

/-- A row of restaurant B, encountered first, with 5 customers. -/
def exRecB : EnrichedRecord :=
  { exRec with restaurantName := some "B", customers := some 5 }

/-- A row of restaurant A, encountered second, with 5 customers. -/
def exRecA : EnrichedRecord :=
  { exRec with restKey := some "R2", restaurantName := some "A",
               customers := some 5 }

/-- A transaction of restaurant R1 in January 2023: 100 euro, 5 customers. -/
def c2Actuals : List TransRow :=
  [{ restKey := some "R1", salesCell := Cell.number 100,
     customersCell := Cell.number 5, date := some (2023, 1) }]

/-- A location row for R1 whose Country cell is empty. -/
def c2Locs : List LocRow :=
  [{ restKey := "R1", country := none, city := some "Paris",
     restaurantName := some "A" }]

/-- The filtered set the dashboard derives from c2Actuals and c2Locs under
the default selection. -/
def c2Filtered : List EnrichedRecord :=
  filtered_df exSel (merged_df c2Actuals c2Locs)

/-- A transaction row whose Sales cell holds the unparseable text N/A. -/
def c8Trans : TransRow :=
  { restKey := some "R1", salesCell := Cell.text "N/A",
    customersCell := Cell.number 5, date := some (2023, 1) }

/-- A fully populated location row for R1. -/
def c8Loc : LocRow :=
  { restKey := "R1", country := some "France", city := some "Paris",
    restaurantName := some "Bistro A" }

/-- The enriched row the loader and joiner produce from c8Trans. -/
def c8Rec : EnrichedRecord := mergeRow [c8Loc] c8Trans

/-- A row whose Date failed to parse: null date, hence null Year and Month. -/
def c9Rec : EnrichedRecord := { exRec with date := none }

/-! ### Order properties of the string key order -/

theorem charListLe_total : ∀ as bs : List Char,
    charListLe as bs = true ∨ charListLe bs as = true
  | [], _ => Or.inl rfl
  | _ :: _, [] => Or.inr rfl
  | a :: as, b :: bs => by
    rcases lt_trichotomy a b with h | h | h
    · exact Or.inl (by simp [charListLe, h])
    · subst h
      rcases charListLe_total as bs with hr | hr
      · exact Or.inl (by simp [charListLe, lt_irrefl, hr])
      · exact Or.inr (by simp [charListLe, lt_irrefl, hr])
    · exact Or.inr (by simp [charListLe, h])

theorem charListLe_trans : ∀ as bs cs : List Char,
    charListLe as bs = true → charListLe bs cs = true → charListLe as cs = true
  | [], _, _, _, _ => rfl
  | _ :: _, [], _, h, _ => by simp [charListLe] at h
  | _ :: _, _ :: _, [], _, h => by simp [charListLe] at h
  | a :: as, b :: bs, c :: cs, h1, h2 => by
    simp only [charListLe] at h1 h2 ⊢
    rcases lt_trichotomy a b with hab | hab | hab
    · rcases lt_trichotomy b c with hbc | hbc | hbc
      · simp [lt_trans hab hbc]
      · subst hbc; simp [hab]
      · simp [lt_asymm hbc, hbc] at h2
    · subst hab
      rcases lt_trichotomy a c with hac | hac | hac
      · simp [hac]
      · subst hac
        simp only [lt_irrefl, if_false] at h1 h2 ⊢
        exact charListLe_trans as bs cs h1 h2
      · simp [lt_asymm hac, hac] at h2
    · simp [lt_asymm hab, hab] at h1

theorem charListLe_antisymm : ∀ as bs : List Char,
    charListLe as bs = true → charListLe bs as = true → as = bs
  | [], [], _, _ => rfl
  | [], _ :: _, _, h => by simp [charListLe] at h
  | _ :: _, [], h, _ => by simp [charListLe] at h
  | a :: as, b :: bs, h1, h2 => by
    simp only [charListLe] at h1 h2
    rcases lt_trichotomy a b with hab | hab | hab
    · simp [lt_asymm hab, hab] at h2
    · subst hab
      simp only [lt_irrefl, if_false] at h1 h2
      rw [charListLe_antisymm as bs h1 h2]
    · simp [lt_asymm hab, hab] at h1

theorem sLe_total (a b : String) : sLe a b ∨ sLe b a :=
  charListLe_total a.data b.data

theorem sLe_trans {a b c : String} : sLe a b → sLe b c → sLe a c :=
  charListLe_trans a.data b.data c.data

theorem sLe_antisymm {a b : String} : sLe a b → sLe b a → a = b := by
  intro h1 h2
  apply String.ext
  exact charListLe_antisymm a.data b.data h1 h2

instance : IsTotal String sLe := ⟨sLe_total⟩

instance : IsTrans String sLe := ⟨fun _ _ _ => sLe_trans⟩

instance : IsAntisymm String sLe := ⟨fun _ _ => sLe_antisymm⟩

/-! ### Group sums partition the summed column -/

theorem groupSum_cons_none [DecidableEq α] {key : EnrichedRecord → Option α}
    (val : EnrichedRecord → Option Int) {r : EnrichedRecord}
    (df : List EnrichedRecord) (k : α) (h : key r = none) :
    groupSum key val (r :: df) k = groupSum key val df k := by
  simp [groupSum, List.filter_cons, h]

theorem groupSum_cons_some [DecidableEq α] {key : EnrichedRecord → Option α}
    (val : EnrichedRecord → Option Int) {r : EnrichedRecord}
    (df : List EnrichedRecord) (k k0 : α) (h : key r = some k0) :
    groupSum key val (r :: df) k
      = if k = k0 then (val r).getD 0 + groupSum key val df k
        else groupSum key val df k := by
  by_cases hk : k = k0
  · subst hk; simp [groupSum, List.filter_cons, h]
  · simp [groupSum, List.filter_cons, h, hk, Ne.symm hk]

theorem sum_map_ite [DecidableEq α] (ks : List α) (k0 : α) (c : Int) (g : α → Int)
    (hnd : ks.Nodup) (hm : k0 ∈ ks) :
    (ks.map (fun k => if k = k0 then c + g k else g k)).sum
      = c + (ks.map g).sum := by
  induction ks with
  | nil => cases hm
  | cons a ks ih =>
    rcases List.mem_cons.mp hm with rfl | hm2
    · have hrest : ∀ k ∈ ks, (if k = k0 then c + g k else g k) = g k := by
        intro k hk
        have hne : k ≠ k0 := by
          rintro rfl; exact (List.nodup_cons.mp hnd).1 hk
        simp [hne]
      simp only [List.map_cons, List.sum_cons]
      rw [List.map_congr_left hrest]
      simp [add_assoc]
    · have hne : a ≠ k0 := by
        rintro rfl; exact (List.nodup_cons.mp hnd).1 hm2
      simp only [List.map_cons, List.sum_cons, if_neg hne]
      rw [ih (List.nodup_cons.mp hnd).2 hm2]
      ring

theorem sum_groupSum [DecidableEq α] (key : EnrichedRecord → Option α)
    (val : EnrichedRecord → Option Int) (df : List EnrichedRecord) (ks : List α)
    (hnd : ks.Nodup) (hcov : ∀ r ∈ df, ∀ k, key r = some k → k ∈ ks) :
    (ks.map (fun k => groupSum key val df k)).sum
      = ((df.filter (fun r => (key r).isSome)).map (fun r => (val r).getD 0)).sum := by
  induction df with
  | nil =>
    simp only [List.filter_nil, List.map_nil, List.sum_nil]
    apply List.sum_eq_zero
    intro x hx
    rcases List.mem_map.mp hx with ⟨k, _, rfl⟩
    rfl
  | cons r df ih =>
    have hcov2 : ∀ r2 ∈ df, ∀ k, key r2 = some k → k ∈ ks :=
      fun r2 h => hcov r2 (List.mem_cons_of_mem _ h)
    cases hkr : key r with
    | none =>
      have hmap : ∀ k ∈ ks, groupSum key val (r :: df) k = groupSum key val df k :=
        fun k _ => groupSum_cons_none val df k hkr
      rw [List.map_congr_left hmap, ih hcov2]
      simp [List.filter_cons, hkr]
    | some k0 =>
      have hk0 : k0 ∈ ks := hcov r (List.mem_cons_self r df) k0 hkr
      have hmap : ∀ k ∈ ks, groupSum key val (r :: df) k
          = if k = k0 then (val r).getD 0 + groupSum key val df k
            else groupSum key val df k :=
        fun k _ => groupSum_cons_some val df k k0 hkr
      rw [List.map_congr_left hmap, sum_map_ite ks k0 _ _ hnd hk0, ih hcov2]
      simp [List.filter_cons, hkr]

theorem mem_keysOf [DecidableEq α] {key : EnrichedRecord → Option α}
    {df : List EnrichedRecord} {r : EnrichedRecord} {k : α}
    (hr : r ∈ df) (h : key r = some k) : k ∈ keysOf key df := by
  rw [keysOf, List.mem_dedup, List.mem_filterMap]
  exact ⟨r, hr, h⟩

theorem sum_groupSum_keysOf [DecidableEq α] (key : EnrichedRecord → Option α)
    (val : EnrichedRecord → Option Int) (df : List EnrichedRecord) :
    ((keysOf key df).map (fun k => groupSum key val df k)).sum
      = ((df.filter (fun r => (key r).isSome)).map (fun r => (val r).getD 0)).sum :=
  sum_groupSum key val df _ (List.nodup_dedup _)
    (fun _ hr _ h => mem_keysOf hr h)

/-! ### Filter engine lemmas -/

theorem condFilter_nil (p : EnrichedRecord → Bool) (l : List EnrichedRecord) :
    condFilter [] p l = l := rfl

theorem mem_of_mem_condFilter {choices : List String} {p : EnrichedRecord → Bool}
    {l : List EnrichedRecord} {r : EnrichedRecord}
    (h : r ∈ condFilter choices p l) : r ∈ l := by
  unfold condFilter at h
  split at h
  · exact h
  · exact (List.mem_filter.mp h).1

theorem pred_of_mem_condFilter {choices : List String} {p : EnrichedRecord → Bool}
    {l : List EnrichedRecord} {r : EnrichedRecord}
    (hne : choices ≠ []) (h : r ∈ condFilter choices p l) : p r = true := by
  rw [condFilter, if_neg (by simp [hne])] at h
  exact (List.mem_filter.mp h).2

theorem yearPass_iff (sel : FilterSelection) (r : EnrichedRecord) :
    yearPass sel r = true
      ↔ ∃ y, year r = some y ∧ sel.yearLo ≤ y ∧ y ≤ sel.yearHi := by
  unfold yearPass
  cases hy : year r with
  | none => simp
  | some y => simp

theorem mem_yearFiltered {sel : FilterSelection} {df : List EnrichedRecord}
    {r : EnrichedRecord} :
    r ∈ yearFiltered sel df
      ↔ r ∈ df ∧ ∃ y, year r = some y ∧ sel.yearLo ≤ y ∧ y ≤ sel.yearHi := by
  rw [yearFiltered, List.mem_filter, yearPass_iff]

theorem filtered_subset (sel : FilterSelection) (df : List EnrichedRecord) :
    ∀ r ∈ filtered_df sel df, r ∈ yearFiltered sel df :=
  fun _ h =>
    mem_of_mem_condFilter (mem_of_mem_condFilter (mem_of_mem_condFilter h))

theorem month_isSome_of_mem_filtered {sel : FilterSelection}
    {df : List EnrichedRecord} {r : EnrichedRecord}
    (h : r ∈ filtered_df sel df) : (month r).isSome = true := by
  have h1 := filtered_subset sel df r h
  rcases (mem_yearFiltered.mp h1).2 with ⟨y, hy, _, _⟩
  rw [year] at hy
  rw [month]
  cases hd : r.date with
  | none => rw [hd] at hy; simp at hy
  | some p => simp

/-! ### Grand totals of the aggregated tables -/

theorem sum_monthsOf_groupSum (df : List EnrichedRecord) :
    ((monthsOf df).map (fun m => groupSum month (fun r => r.sales) df m)).sum
      = ((df.filter (fun r => (month r).isSome)).map (fun r => (r.sales).getD 0)).sum := by
  rw [monthsOf,
    List.Perm.sum_eq (List.Perm.map _ (List.perm_insertionSort _ _))]
  exact sum_groupSum_keysOf month (fun r => r.sales) df

theorem grandTotal_sortDesc (t : List (String × Int)) :
    grandTotal (List.insertionSort (fun a b => b.2 ≤ a.2) t) = grandTotal t := by
  rw [grandTotal, grandTotal]
  exact List.Perm.sum_eq (List.Perm.map _ (List.perm_insertionSort _ t))

theorem grandTotal_groupbyAgg (key : EnrichedRecord → Option String)
    (val : EnrichedRecord → Option Int) (df : List EnrichedRecord) :
    grandTotal (groupbyAgg key val sLe df)
      = ((df.filter (fun r => (key r).isSome)).map (fun r => (val r).getD 0)).sum := by
  rw [grandTotal, groupbyAgg, List.map_map]
  rw [List.Perm.sum_eq (List.Perm.map _ (List.perm_insertionSort _ _))]
  exact sum_groupSum_keysOf key val df

/-! ### Sortedness of the aggregated tables -/

theorem monthsOf_sorted_lt (df : List EnrichedRecord) :
    (monthsOf df).Sorted (fun a b : Nat => a < b) := by
  have hs : (monthsOf df).Sorted (fun a b : Nat => a ≤ b) :=
    List.sorted_insertionSort _ _
  have hnd : (monthsOf df).Nodup :=
    ((List.perm_insertionSort _ _).nodup_iff).mpr (List.nodup_dedup _)
  exact List.Sorted.lt_of_le hs hnd

theorem mem_monthsOf {df : List EnrichedRecord} {m : Nat} :
    m ∈ monthsOf df ↔ ∃ r ∈ df, month r = some m := by
  rw [monthsOf]
  rw [(List.perm_insertionSort _ _).mem_iff]
  rw [keysOf, List.mem_dedup, List.mem_filterMap]

theorem orderedInsert_rowLex (x : String × Int) :
    ∀ sl : List (String × Int), sl.Sorted rowLex → (∀ b ∈ sl, sLt x.1 b.1) →
      (List.orderedInsert (fun a b => b.2 ≤ a.2) x sl).Sorted rowLex
  | [], _, _ => List.sorted_singleton x
  | b :: t, hs, hn => by
    rw [List.orderedInsert]
    split
    · rename_i hle
      rw [List.Sorted, List.pairwise_cons]
      constructor
      · intro y hy
        rcases List.mem_cons.mp hy with rfl | hyt
        · rcases lt_or_eq_of_le hle with h | h
          · exact Or.inl h
          · exact Or.inr ⟨h, hn _ (List.mem_cons_self _ _)⟩
        · have hby : rowLex b y := (List.pairwise_cons.mp hs).1 y hyt
          have hyb : y.2 ≤ b.2 := by
            rcases hby with h | h
            · exact le_of_lt h
            · exact le_of_eq h.1
          rcases lt_or_eq_of_le (le_trans hyb hle) with h | h
          · exact Or.inl h
          · exact Or.inr ⟨h, hn y (List.mem_cons_of_mem _ hyt)⟩
      · exact hs
    · rename_i hgt
      rw [List.Sorted, List.pairwise_cons]
      constructor
      · intro y hy
        rcases (List.mem_orderedInsert _).mp hy with rfl | hyt
        · exact Or.inl (lt_of_not_le hgt)
        · exact (List.pairwise_cons.mp hs).1 y hyt
      · exact orderedInsert_rowLex x t (List.pairwise_cons.mp hs).2
          (fun y hy => hn y (List.mem_cons_of_mem _ hy))

theorem insertionSort_rowLex :
    ∀ l : List (String × Int), l.Pairwise (fun a b => sLt a.1 b.1) →
      (List.insertionSort (fun a b => b.2 ≤ a.2) l).Sorted rowLex
  | [], _ => List.sorted_nil
  | x :: l, hp => by
    rw [List.insertionSort]
    apply orderedInsert_rowLex
    · exact insertionSort_rowLex l (List.pairwise_cons.mp hp).2
    · intro b hb
      have hbl : b ∈ l := by
        have := (List.perm_insertionSort (fun a b => b.2 ≤ a.2) l).mem_iff.mp hb
        exact this
      exact (List.pairwise_cons.mp hp).1 b hbl

theorem groupbyAgg_names_pairwise (key : EnrichedRecord → Option String)
    (val : EnrichedRecord → Option Int) (df : List EnrichedRecord) :
    (groupbyAgg key val sLe df).Pairwise (fun a b => sLt a.1 b.1) := by
  rw [groupbyAgg]
  have hs : (List.insertionSort sLe (keysOf key df)).Sorted sLe :=
    List.sorted_insertionSort _ _
  have hnd : (List.insertionSort sLe (keysOf key df)).Nodup :=
    ((List.perm_insertionSort _ _).nodup_iff).mpr (List.nodup_dedup _)
  have hlt : (List.insertionSort sLe (keysOf key df)).Pairwise sLt :=
    (hs.and hnd).imp (fun h => ⟨h.1, h.2⟩)
  exact hlt.map _ (fun a b h => h)

theorem customers_by_restaurant_rowLex (df : List EnrichedRecord) :
    (customers_by_restaurant df).Sorted rowLex := by
  rw [customers_by_restaurant]
  exact insertionSort_rowLex _
    (groupbyAgg_names_pairwise (fun r => r.restaurantName) (fun r => r.customers) df)

theorem groupbyAgg_cons_none [DecidableEq α] {key : EnrichedRecord → Option α}
    (val : EnrichedRecord → Option Int) (rel : α → α → Prop) [DecidableRel rel]
    {r : EnrichedRecord} (df : List EnrichedRecord) (h : key r = none) :
    groupbyAgg key val rel (r :: df) = groupbyAgg key val rel df := by
  rw [groupbyAgg, groupbyAgg, keysOf, keysOf, List.filterMap_cons_none h]
  apply List.map_congr_left
  intro k _
  rw [groupSum_cons_none val df k h]

/-! ### The claims -/

/-- C1: for every filtered record set, the TotalSales values of the Monthly
summary summed over all its rows equal the sum of SalesAmount over the whole
filtered set with null SalesAmount as 0: the groupby by Month drops only
null-Month rows, and the year-range filter has already removed them. -/
theorem c1_monthly_total_sales_partition (sel : FilterSelection)
    (df : List EnrichedRecord) :
    ((monthly_summary (filtered_df sel df)).map (fun row => row.2.1)).sum
      = ((filtered_df sel df).map (fun r => (r.sales).getD 0)).sum := by
  have hmap : (monthly_summary (filtered_df sel df)).map (fun row => row.2.1)
      = (monthsOf (filtered_df sel df)).map
          (fun m => groupSum month (fun r => r.sales) (filtered_df sel df) m) := by
    rw [monthly_summary, List.map_map]
    rfl
  rw [hmap, sum_monthsOf_groupSum,
    List.filter_eq_self.mpr (fun r hr => month_isSome_of_mem_filtered hr)]

/-- C2 counterexample: a matched location row with an empty Country cell
yields a filtered set (built by the full load, join and filter pipeline)
whose CustomersByCountry grand total (0) differs from its
CustomersByRestaurant grand total (5), refuting the claimed equality. -/
theorem c2_counterexample_country_null_only :
    grandTotal (customers_by_country c2Filtered)
      ≠ grandTotal (customers_by_restaurant c2Filtered) := by decide

/-- C2 amended: the two grand totals agree for every filtered record set in
which Country is null exactly when RestaurantName is null (as when the only
source of nulls is an unmatched left join); each grand total equals the sum
of CustomerCount over the rows with a non-null respective group key, so a
row null in one key but not the other breaks the equality. -/
theorem c2_amended_grand_totals_equal (df : List EnrichedRecord)
    (h : ∀ r ∈ df, r.country.isSome = r.restaurantName.isSome) :
    grandTotal (customers_by_country df)
      = grandTotal (customers_by_restaurant df) := by
  rw [customers_by_country, customers_by_restaurant, grandTotal_sortDesc,
    grandTotal_sortDesc, grandTotal_groupbyAgg, grandTotal_groupbyAgg,
    List.filter_congr h]

/-- C2 witness: the amended theorem applied to a one-row set whose keys are
both non-null. -/
theorem c2_amended_witness :
    grandTotal (customers_by_country [exRec])
      = grandTotal (customers_by_restaurant [exRec]) :=
  c2_amended_grand_totals_equal [exRec]
    (fun r hr => by rw [List.mem_singleton] at hr; subst hr; rfl)

/-- C3: when the country, city and restaurant selections are all empty, no
facet mask is applied: the filter output is exactly the year-range-filtered
input, in input order. -/
theorem c3_empty_selections_no_facet_filter (sel : FilterSelection)
    (df : List EnrichedRecord) (hco : sel.countries = [])
    (hci : sel.cities = []) (hre : sel.restaurants = []) :
    filtered_df sel df = yearFiltered sel df := by
  rw [filtered_df, hco, hci, hre, condFilter_nil, condFilter_nil, condFilter_nil]

/-- C3 witness: the theorem applied to the default selection over a one-row
set. -/
theorem c3_witness : filtered_df exSel [exRec] = yearFiltered exSel [exRec] :=
  c3_empty_selections_no_facet_filter exSel [exRec] rfl rfl rfl

/-- C4 counterexample: two rows with equal customer totals, restaurant B
encountered before restaurant A, come out of CustomersByRestaurant as A then
B: the groupby sorts rows by name before the descending sort, so tied rows
appear in key order, not input encounter order as claimed. -/
theorem c4_counterexample_tie_order :
    customers_by_restaurant [exRecB, exRecA] = [("A", 5), ("B", 5)]
    ∧ customers_by_restaurant [exRecB, exRecA] ≠ [("B", 5), ("A", 5)] :=
  ⟨by decide, by decide⟩

/-- C4 amended: CustomersByRestaurant is sorted with TotalCustomers
non-increasing across rows, and rows with equal TotalCustomers appear in
strictly ascending RestaurantName order (the order the groupby produced),
not in input encounter order; the descending sort is modelled as stable. -/
theorem c4_amended_sorted_desc_ties_key_order (df : List EnrichedRecord) :
    (customers_by_restaurant df).Sorted (fun a b => b.2 ≤ a.2)
    ∧ (customers_by_restaurant df).Sorted
        (fun a b => b.2 = a.2 → sLt a.1 b.1) := by
  have h := customers_by_restaurant_rowLex df
  refine ⟨List.Pairwise.imp ?_ h, List.Pairwise.imp ?_ h⟩
  · intro a b hab
    rcases hab with h1 | h1
    · exact le_of_lt h1
    · exact le_of_eq h1.1
  · intro a b hab heq
    rcases hab with h1 | h1
    · exact absurd heq (ne_of_lt h1)
    · exact h1.2

/-- C5: the Monthly summary has one row per distinct month present in the
filtered set, in strictly ascending month order, labelled with the m-th
three-letter English month name; absent months produce no row at all. -/
theorem c5_monthly_summary_rows (df : List EnrichedRecord) :
    (monthly_summary df).map (fun row => row.1)
        = (monthsOf df).map (fun m => month_names.getD (m - 1) "")
    ∧ (monthly_summary df).length = (monthsOf df).length
    ∧ (monthsOf df).Sorted (fun a b : Nat => a < b)
    ∧ (∀ m, m ∈ monthsOf df ↔ ∃ r ∈ df, month r = some m) := by
  refine ⟨?_, ?_, monthsOf_sorted_lt df, fun m => mem_monthsOf⟩
  · rw [monthly_summary, List.map_map]
    rfl
  · rw [monthly_summary, List.length_map]

/-- C6: a record passes the year-range stage iff its Year is non-null and
lies in [yearLo, yearHi] inclusive; a record whose Date failed to parse has
null Year and never passes. -/
theorem c6_year_filter_iff (sel : FilterSelection) (df : List EnrichedRecord)
    (r : EnrichedRecord) :
    (r ∈ yearFiltered sel df
        ↔ r ∈ df ∧ ∃ y, year r = some y ∧ sel.yearLo ≤ y ∧ y ≤ sel.yearHi)
    ∧ (r.date = none → r ∉ yearFiltered sel df) := by
  refine ⟨mem_yearFiltered, ?_⟩
  intro hd hmem
  rcases (mem_yearFiltered.mp hmem).2 with ⟨y, hy, _, _⟩
  rw [year, hd] at hy
  simp at hy

/-- C6 witness: the theorem applied to a 2023 row inside the 2023 range and
to a row with unparseable Date. -/
theorem c6_witness :
    exRec ∈ yearFiltered exSel [exRec] ∧ c9Rec ∉ yearFiltered exSel [c9Rec] :=
  ⟨(c6_year_filter_iff exSel [exRec] exRec).1.mpr
      ⟨List.mem_singleton.mpr rfl, 2023, rfl, by decide, by decide⟩,
   (c6_year_filter_iff exSel [c9Rec] c9Rec).2 rfl⟩

/-- C7: when the country selection is non-empty, every record of the filter
output has a non-null Country belonging to the selection. -/
theorem c7_country_filter_members (sel : FilterSelection)
    (df : List EnrichedRecord) (r : EnrichedRecord)
    (hne : sel.countries ≠ []) (h : r ∈ filtered_df sel df) :
    ∃ c, r.country = some c ∧ c ∈ sel.countries := by
  rw [filtered_df] at h
  have h3 := mem_of_mem_condFilter (mem_of_mem_condFilter h)
  have hp := pred_of_mem_condFilter hne h3
  cases hc : r.country with
  | none => rw [isinOpt.eq_def, hc] at hp; simp at hp
  | some c =>
    rw [isinOpt.eq_def, hc] at hp
    exact ⟨c, rfl, by simpa using hp⟩

/-- C7 witness: the theorem applied to the France-only selection over a
one-row French data set. -/
theorem c7_witness :
    ∃ c, exRec.country = some c ∧ c ∈ exSelFrance.countries :=
  c7_country_filter_members exSelFrance [exRec] exRec (by decide) (by decide)

/-- C8: numeric coercion of the text N/A yields null (coercion is total and
never an error); a record with null SalesAmount contributes nothing to its
month TotalSales; and such a record with a non-null RestaurantKey is still
among the distinct keys its month RestaurantCount counts. -/
theorem c8_unparseable_sales_null :
    toNumeric (Cell.text "N/A") = none
    ∧ (∀ (df : List EnrichedRecord) (r : EnrichedRecord) (m : Nat),
        r.sales = none →
        groupSum month (fun x => x.sales) (r :: df) m
          = groupSum month (fun x => x.sales) df m)
    ∧ (∀ (df : List EnrichedRecord) (r : EnrichedRecord) (m : Nat) (k : String),
        month r = some m → r.restKey = some k →
        k ∈ (((r :: df).filter (fun x => month x == some m)).filterMap
              (fun x => x.restKey)).dedup) := by
  refine ⟨by decide, ?_, ?_⟩
  · intro df r m hs
    cases hm : month r with
    | none => exact groupSum_cons_none _ df m hm
    | some m0 =>
      rw [groupSum_cons_some _ df m m0 hm, hs]
      split <;> simp
  · intro df r m k hm hk
    rw [List.mem_dedup, List.mem_filterMap]
    refine ⟨r, ?_, hk⟩
    rw [List.mem_filter]
    exact ⟨List.mem_cons_self _ _, by rw [hm]; exact beq_self_eq_true _⟩

/-- C8 witness: the theorem applied to the enriched row built by the loader
and joiner from the N/A transaction: its sales are null, it adds nothing to
the January sum, and R1 still counts toward the January distinct keys. -/
theorem c8_witness :
    groupSum month (fun x => x.sales) [c8Rec] 1
        = groupSum month (fun x => x.sales) [] 1
    ∧ "R1" ∈ ((([c8Rec].filter (fun x => month x == some 1)).filterMap
          (fun x => x.restKey)).dedup) :=
  ⟨c8_unparseable_sales_null.2.1 [] c8Rec 1 (by decide),
   c8_unparseable_sales_null.2.2 [] c8Rec 1 "R1" (by decide) (by decide)⟩

/-- C9: when every record has null Date (every Date failed to parse), the
Year column is entirely null, and computing the year-range bounds fails (int
of NaN raises), aborting the dashboard before filtering or aggregation: at
least one parseable Date is a startup precondition. -/
theorem c9_all_null_years_abort (df : List EnrichedRecord)
    (h : ∀ r ∈ df, r.date = none) : yearBounds df = none := by
  have hnil : (df.map year).filterMap id = [] := by
    apply List.filterMap_eq_nil_iff.mpr
    intro o ho
    rcases List.mem_map.mp ho with ⟨r, hr, rfl⟩
    rw [year, h r hr]
    rfl
  have h1 : colMin (df.map year) = none := by
    simp only [colMin, hnil]
  have h2 : colMax (df.map year) = none := by
    simp only [colMax, hnil]
  simp only [yearBounds, h1, h2]

/-- C9 witness: the theorem applied to a one-row set whose Date is null. -/
theorem c9_witness : yearBounds [c9Rec] = none :=
  c9_all_null_years_abort [c9Rec]
    (fun r hr => by rw [List.mem_singleton] at hr; subst hr; rfl)

/-- C10: a record with null RestaurantName contributes to no row of
CustomersByRestaurant, and one with null Country to no row of
CustomersByCountry: prepending such a record leaves the grouped table
unchanged, so its CustomerCount is absent from the totals. -/
theorem c10_null_group_key_dropped (df : List EnrichedRecord)
    (r : EnrichedRecord) :
    (r.restaurantName = none →
      customers_by_restaurant (r :: df) = customers_by_restaurant df)
    ∧ (r.country = none →
      customers_by_country (r :: df) = customers_by_country df) := by
  constructor
  · intro h
    rw [customers_by_restaurant, customers_by_restaurant,
      groupbyAgg_cons_none _ sLe df h]
  · intro h
    rw [customers_by_country, customers_by_country,
      groupbyAgg_cons_none _ sLe df h]

/-- C10 witness: the theorem applied to a row (unmatched in the join) whose
Country and RestaurantName are both null. -/
theorem c10_witness :
    customers_by_restaurant [exRecNullKeys] = customers_by_restaurant []
    ∧ customers_by_country [exRecNullKeys] = customers_by_country [] :=
  ⟨(c10_null_group_key_dropped [] exRecNullKeys).1 rfl,
   (c10_null_group_key_dropped [] exRecNullKeys).2 rfl⟩

end PrC
